import Mathlib

/-!
Verification of the landlab unstructured-grid core: the control-volume
flux-divergence operator (`src/landlab/grid/grid_funcs.py`), node/link
mapping operators (`src/landlab/grid/mappers.py`), and the Voronoi/Delaunay
grid construction (`src/landlab/grid/voronoi.py`).

Numbers are modelled as exact rationals; numpy float arrays become `List ℚ`,
and numpy's wrap-around indexing (`a[-1]` is the last element) is modelled
explicitly, because the source deliberately exploits it: sentinel link id
`-1` indexes the extra zero slot of the flux buffer.
-/

namespace Landlab

/-- Numpy-style read from a 1-D rational array: a negative index wraps
around from the end (`a[-1]` is the last element).  An index outside the
array (never reached for well-formed grid tables) yields `0`. -/
def np_get (buf : List ℚ) (idx : Int) : ℚ :=
  if 0 ≤ idx then buf.getD idx.toNat 0
  else if (-idx).toNat ≤ buf.length then buf.getD (buf.length - (-idx).toNat) 0
  else 0

/-- Numpy `amax` over a 1-D rational array.  Numpy raises on an empty
array; that case (never reached, every grid row is non-empty) yields `0`. -/
def np_amax : List ℚ → ℚ
  | [] => 0
  | h :: t => t.foldl max h

/-- The slice of landlab grid state read by
`calculate_flux_divergence_at_nodes` (`src/landlab/grid/grid_funcs.py`).
The inlink/outlink matrices are stored row-major exactly as in the source:
`node_active_outlink_matrix[i][n]` holds the id of the `i`-th active link
leaving node `n`, or the sentinel `-1`; `node_at_cell` maps each cell id to
its owning node; `area_of_cell` and `face_width` are the cell-area and
face-width arrays. -/
structure FluxGrid where
  number_of_nodes : ℕ
  number_of_active_links : ℕ
  face_width : List ℚ
  node_active_inlink_matrix : List (List Int)
  node_active_outlink_matrix : List (List Int)
  node_at_cell : List ℕ
  core_cells : List ℕ
  area_of_cell : List ℚ

/-- `flux = np.zeros(len(active_link_flux) + 1);
flux[:len(active_link_flux)] = active_link_flux * grid.face_width`:
the total-flux buffer, one entry per active link (unit flux times face
width) plus one extra zero slot so that the sentinel id `-1` indexes
harmlessly. -/
def flux_buffer (active_link_flux face_width : List ℚ) : List ℚ :=
  List.zipWith (fun f w => f * w) active_link_flux face_width ++ [0]

/-- The accumulation loop of `calculate_flux_divergence_at_nodes`: for each
row `i` of the inlink/outlink matrices, add the outgoing and subtract the
incoming buffered flux.  As in the source, the loop bound is the number of
rows of the inlink matrix. -/
def net_total_flux (g : FluxGrid) (flux : List ℚ) (n : ℕ) : ℚ :=
  (List.range g.node_active_inlink_matrix.length).foldl
    (fun acc i =>
      acc + np_get flux ((g.node_active_outlink_matrix.getD i []).getD n (-1))
          - np_get flux ((g.node_active_inlink_matrix.getD i []).getD n (-1)))
    0

/-- `calculate_flux_divergence_at_nodes` (`grid_funcs.py`, lines 65-143).
The length assertion is modelled as `Except.error`; the net flux is
accumulated at every node, and afterwards
`net_unit_flux[node_at_cell[core_cells]] /= area_of_cell[core_cells]`
divides by cell area only at nodes owning a core cell.  Numpy's fancy
assignment applies the last matching cell when a node is repeated, hence
`getLast?` on the matching cells. -/
def calculate_flux_divergence_at_nodes (g : FluxGrid) (active_link_flux : List ℚ) :
    Except String (List ℚ) :=
  if active_link_flux.length = g.number_of_active_links then
    Except.ok ((List.range g.number_of_nodes).map (fun n =>
      match (g.core_cells.filter (fun c => g.node_at_cell.getD c 0 == n)).getLast? with
      | some c =>
          net_total_flux g (flux_buffer active_link_flux g.face_width) n /
            g.area_of_cell.getD c 0
      | none => net_total_flux g (flux_buffer active_link_flux g.face_width) n))
  else Except.error "incorrect length of active_link_flux array"

/-- Spec-side reading of one matrix entry: the face flux carried by active
link `e` (unit flux times face width), or `0` for the sentinel. -/
def face_flux (alf fw : List ℚ) (e : Int) : ℚ :=
  if 0 ≤ e ∧ e < (alf.length : Int) then alf.getD e.toNat 0 * fw.getD e.toNat 0 else 0

/-- Spec-side net outgoing-minus-incoming total face flux at node `n`:
sum the outgoing face fluxes via the outlink matrix and subtract the
incoming ones via the inlink matrix. -/
def spec_net_flux (g : FluxGrid) (alf : List ℚ) (n : ℕ) : ℚ :=
  (g.node_active_outlink_matrix.map
    (fun row => face_flux alf g.face_width (row.getD n (-1)))).sum
  - (g.node_active_inlink_matrix.map
    (fun row => face_flux alf g.face_width (row.getD n (-1)))).sum

/-- The core cell owned by node `n`, if any. -/
def cell_of_node (g : FluxGrid) (n : ℕ) : Option ℕ :=
  g.core_cells.find? (fun c => g.node_at_cell.getD c 0 == n)

/-- Spec-side divergence, as the source actually behaves: net total face
flux divided by cell area at a node owning a core cell, and the *undivided*
net total face flux at a node without a cell. -/
def spec_divergence (g : FluxGrid) (alf : List ℚ) (n : ℕ) : ℚ :=
  match cell_of_node g n with
  | some c => spec_net_flux g alf n / g.area_of_cell.getD c 0
  | none => spec_net_flux g alf n

/-- Well-formedness of the grid tables, as guaranteed by grid construction:
the face-width array has one entry per active link, the two matrices have
equally many rows, every row spans all nodes, every entry is the sentinel
`-1` or a valid active-link id, core cell ids index `node_at_cell`, cell
owners are valid distinct nodes. -/
def FluxGrid.WF (g : FluxGrid) : Prop :=
  g.face_width.length = g.number_of_active_links ∧
  g.node_active_outlink_matrix.length = g.node_active_inlink_matrix.length ∧
  (∀ row ∈ g.node_active_inlink_matrix, row.length = g.number_of_nodes) ∧
  (∀ row ∈ g.node_active_outlink_matrix, row.length = g.number_of_nodes) ∧
  (∀ row ∈ g.node_active_inlink_matrix, ∀ e ∈ row,
    e = -1 ∨ (0 ≤ e ∧ e < (g.number_of_active_links : Int))) ∧
  (∀ row ∈ g.node_active_outlink_matrix, ∀ e ∈ row,
    e = -1 ∨ (0 ≤ e ∧ e < (g.number_of_active_links : Int))) ∧
  (∀ c ∈ g.core_cells, c < g.node_at_cell.length) ∧
  (∀ c ∈ g.core_cells, g.node_at_cell.getD c 0 < g.number_of_nodes) ∧
  g.core_cells.Nodup ∧
  (∀ c₁ ∈ g.core_cells, ∀ c₂ ∈ g.core_cells,
    g.node_at_cell.getD c₁ 0 = g.node_at_cell.getD c₂ 0 → c₁ = c₂)

/-- Two nodes, one active link from node 0 (no cell) to node 1 (cell 0 of
unit area): the smallest grid exhibiting the behaviour of
`calculate_flux_divergence_at_nodes` at a node without a cell. -/
def cexFluxGrid : FluxGrid where
  number_of_nodes := 2
  number_of_active_links := 1
  face_width := [1]
  node_active_inlink_matrix := [[-1, 0]]
  node_active_outlink_matrix := [[0, -1]]
  node_at_cell := [1]
  core_cells := [0]
  area_of_cell := [1]

/-! ### Helper lemmas: list access and summation -/

lemma getD_append_last (xs : List ℚ) (z d : ℚ) : (xs ++ [z]).getD xs.length d = z := by
  induction xs with
  | nil => rfl
  | cons a t ih => simpa using ih

lemma getD_zipWith_mul (alf fw : List ℚ) (i : ℕ)
    (h₁ : i < alf.length) (h₂ : i < fw.length) :
    (List.zipWith (fun f w => f * w) alf fw).getD i 0 = alf.getD i 0 * fw.getD i 0 := by
  induction alf generalizing fw i with
  | nil => simp at h₁
  | cons a t ih =>
    cases fw with
    | nil => simp at h₂
    | cons b u =>
      cases i with
      | zero => rfl
      | succ j =>
        simp only [List.zipWith_cons_cons, List.getD_cons_succ]
        exact ih u j (by simpa using h₁) (by simpa using h₂)

lemma getD_append_lt {α : Type} (xs ys : List α) (i : ℕ) (d : α) (h : i < xs.length) :
    (xs ++ ys).getD i d = xs.getD i d := by
  unfold List.getD
  rw [List.get?_append h]

/-- Reading the flux buffer at a well-formed matrix entry is the spec-side
face flux: the sentinel `-1` hits the extra zero slot, a valid id hits the
product of unit flux and face width. -/
lemma np_get_flux_buffer (alf fw : List ℚ) (hl : alf.length = fw.length) (e : Int)
    (he : e = -1 ∨ (0 ≤ e ∧ e < (alf.length : Int))) :
    np_get (flux_buffer alf fw) e = face_flux alf fw e := by
  have hzlen : (List.zipWith (fun f w => f * w) alf fw).length = alf.length := by
    simp [List.length_zipWith, hl]
  rcases he with he | ⟨h0, hlt⟩
  · subst he
    simp only [np_get, flux_buffer, face_flux]
    rw [if_neg (by decide), if_pos (by simp)]
    have h1 : (List.zipWith (fun f w => f * w) alf fw ++ [(0:ℚ)]).length -
        (-(-1 : Int)).toNat = (List.zipWith (fun f w => f * w) alf fw).length := by
      simp
    rw [h1, getD_append_last]
    norm_num
  · have hi : e.toNat < alf.length := by omega
    simp only [np_get, flux_buffer, face_flux]
    rw [if_pos h0, if_pos ⟨h0, hlt⟩]
    rw [getD_append_lt _ _ _ _ (by omega)]
    exact getD_zipWith_mul alf fw e.toNat hi (by omega)

/-- A `foldl` accumulating `+ f i - h i` over `range m` is the difference of
the two range sums. -/
lemma foldl_add_sub_eq_sum (f h : ℕ → ℚ) (m : ℕ) :
    (List.range m).foldl (fun acc i => acc + f i - h i) 0 =
      (∑ i ∈ Finset.range m, f i) - ∑ i ∈ Finset.range m, h i := by
  induction m with
  | zero => simp
  | succ k ih =>
    rw [List.range_succ, List.foldl_append, Finset.sum_range_succ, Finset.sum_range_succ]
    simp only [List.foldl_cons, List.foldl_nil, ih]
    ring

/-- Sum of a mapped list as a sum over indexed `getD` reads. -/
lemma sum_map_eq_range_sum {M : Type} [AddCommMonoid M] {α : Type}
    (l : List α) (f : α → M) (d : α) :
    (l.map f).sum = ∑ i ∈ Finset.range l.length, f (l.getD i d) := by
  induction l with
  | nil => simp
  | cons a t ih =>
    rw [List.map_cons, List.sum_cons, ih, List.length_cons, Finset.sum_range_succ']
    simp only [List.getD_cons_succ, List.getD_cons_zero]
    exact add_comm _ _

/-- In a duplicate-free list whose elements satisfying `p` are all equal,
the last match is the first match. -/
lemma getLast_filter_eq_find (l : List ℕ) (p : ℕ → Bool) (hnd : l.Nodup)
    (huniq : ∀ a ∈ l, ∀ b ∈ l, p a → p b → a = b) :
    (l.filter p).getLast? = l.find? p := by
  induction l with
  | nil => rfl
  | cons a t ih =>
    rcases hp : p a with _ | _
    · rw [List.filter_cons_of_neg (by simp [hp]), List.find?_cons_of_neg _ (by simp [hp])]
      exact ih (List.Nodup.of_cons hnd)
        (fun x hx y hy hpx hpy => huniq x (List.mem_cons_of_mem a hx)
          y (List.mem_cons_of_mem a hy) hpx hpy)
    · rw [List.filter_cons_of_pos (by simp [hp]), List.find?_cons_of_pos _ (by simp [hp])]
      have ht : t.filter p = [] := by
        rw [List.filter_eq_nil_iff]
        intro b hb hpb
        have hba : b = a := huniq b (List.mem_cons_of_mem a hb) a (List.mem_cons_self a t)
          hpb hp
        subst hba
        exact absurd hb ((List.nodup_cons.mp hnd).1)
      simp [ht]

/-- Refinement: under well-formedness and the length precondition, the
source computation returns exactly the spec-side divergence at every node.
This is the shared bridge between the operator code and its description. -/
lemma flux_divergence_eq_spec (g : FluxGrid) (hwf : g.WF) (alf : List ℚ)
    (hlen : alf.length = g.number_of_active_links) :
    calculate_flux_divergence_at_nodes g alf =
      Except.ok ((List.range g.number_of_nodes).map (spec_divergence g alf)) := by
  obtain ⟨hfw, hrows, hinlen, houtlen, hinent, houtent, hcidx, hcnode, hnd, hinj⟩ := hwf
  unfold calculate_flux_divergence_at_nodes
  rw [if_pos hlen]
  congr 1
  refine List.map_congr_left (fun n hn => ?_)
  have hnet : net_total_flux g (flux_buffer alf g.face_width) n = spec_net_flux g alf n := by
    unfold net_total_flux spec_net_flux
    rw [foldl_add_sub_eq_sum
      (fun i => np_get (flux_buffer alf g.face_width)
        ((g.node_active_outlink_matrix.getD i []).getD n (-1)))
      (fun i => np_get (flux_buffer alf g.face_width)
        ((g.node_active_inlink_matrix.getD i []).getD n (-1)))]
    rw [sum_map_eq_range_sum g.node_active_outlink_matrix _ ([] : List Int),
      sum_map_eq_range_sum g.node_active_inlink_matrix _ ([] : List Int)]
    have hfl : alf.length = g.face_width.length := by rw [hlen, hfw]
    have hout : ∀ i ∈ Finset.range g.node_active_inlink_matrix.length,
        np_get (flux_buffer alf g.face_width)
          ((g.node_active_outlink_matrix.getD i []).getD n (-1)) =
        face_flux alf g.face_width ((g.node_active_outlink_matrix.getD i []).getD n (-1)) := by
      intro i hi
      apply np_get_flux_buffer _ _ hfl
      rcases Nat.lt_or_ge i g.node_active_outlink_matrix.length with hlt | hge
      · have hmem : g.node_active_outlink_matrix.getD i [] ∈ g.node_active_outlink_matrix := by
          rw [List.getD_eq_getElem _ _ hlt]
          exact List.getElem_mem hlt
        rcases Nat.lt_or_ge n (g.node_active_outlink_matrix.getD i []).length with hn2 | hn2
        · have : (g.node_active_outlink_matrix.getD i []).getD n (-1) ∈
              g.node_active_outlink_matrix.getD i [] := by
            rw [List.getD_eq_getElem _ _ hn2]
            exact List.getElem_mem hn2
          rw [hlen]
          exact houtent _ hmem _ this
        · left
          exact List.getD_eq_default _ _ (by omega)
      · left
        have hrow : g.node_active_outlink_matrix.getD i [] = [] :=
          List.getD_eq_default _ _ hge
        rw [hrow]
        exact List.getD_eq_default _ _ (Nat.zero_le n)
    have hin : ∀ i ∈ Finset.range g.node_active_inlink_matrix.length,
        np_get (flux_buffer alf g.face_width)
          ((g.node_active_inlink_matrix.getD i []).getD n (-1)) =
        face_flux alf g.face_width ((g.node_active_inlink_matrix.getD i []).getD n (-1)) := by
      intro i hi
      apply np_get_flux_buffer _ _ hfl
      simp only [Finset.mem_range] at hi
      have hmem : g.node_active_inlink_matrix.getD i [] ∈ g.node_active_inlink_matrix := by
        rw [List.getD_eq_getElem _ _ hi]
        exact List.getElem_mem hi
      rcases Nat.lt_or_ge n (g.node_active_inlink_matrix.getD i []).length with hn2 | hn2
      · have : (g.node_active_inlink_matrix.getD i []).getD n (-1) ∈
            g.node_active_inlink_matrix.getD i [] := by
          rw [List.getD_eq_getElem _ _ hn2]
          exact List.getElem_mem hn2
        rw [hlen]
        exact hinent _ hmem _ this
      · left
        exact List.getD_eq_default _ _ (by omega)
    rw [Finset.sum_congr rfl hin, hrows, Finset.sum_congr rfl hout]
  have hfind : (g.core_cells.filter (fun c => g.node_at_cell.getD c 0 == n)).getLast? =
      cell_of_node g n := by
    unfold cell_of_node
    exact getLast_filter_eq_find g.core_cells _ hnd
      (fun a ha b hb hpa hpb => hinj a ha b hb (by
        have h1 : g.node_at_cell.getD a 0 = n := by simpa using hpa
        have h2 : g.node_at_cell.getD b 0 = n := by simpa using hpb
        rw [h1, h2]))
  rw [hfind]
  unfold spec_divergence
  simp only [hnet]

/-- C1 original-claim counterexample grid evaluation target.  The grid
`cexFluxGrid` has node 0 without a cell; with unit flux on the single
active link the operator returns `1`, not `0`, at node 0. -/
theorem flux_divergence_nocell_counterexample :
    cexFluxGrid.WF ∧
    cell_of_node cexFluxGrid 0 = none ∧
    calculate_flux_divergence_at_nodes cexFluxGrid [1] = Except.ok [1, -1] ∧
    (1 : ℚ) ≠ 0 := by
  refine ⟨by unfold FluxGrid.WF; decide, by decide, ?_, by norm_num⟩
  rw [flux_divergence_eq_spec cexFluxGrid (by unfold FluxGrid.WF; decide) [1] (by decide)]
  simp only [Except.ok.injEq]
  have h0 : spec_divergence cexFluxGrid [1] 0 = 1 := by
    simp [spec_divergence, cell_of_node, spec_net_flux, face_flux, cexFluxGrid]
  have h1 : spec_divergence cexFluxGrid [1] 1 = -1 := by
    simp [spec_divergence, cell_of_node, spec_net_flux, face_flux, cexFluxGrid]
  have hr : List.range cexFluxGrid.number_of_nodes = [0, 1] := by rfl
  rw [hr, List.map_cons, List.map_cons, List.map_nil, h0, h1]

/-- C1 (amended): for every well-formed grid and active-link flux array of
the correct length, `calculate_flux_divergence_at_nodes` returns, at each
node owning a core cell, the sum of outgoing face fluxes minus incoming
face fluxes (via the outlink/inlink matrices, flux times face width)
divided by that cell's area; at each node *without* a cell it returns the
undivided net total face flux, not 0. -/
theorem flux_divergence_at_nodes_spec (g : FluxGrid) (hwf : g.WF) (alf : List ℚ)
    (hlen : alf.length = g.number_of_active_links) :
    calculate_flux_divergence_at_nodes g alf =
      Except.ok ((List.range g.number_of_nodes).map (fun n =>
        match cell_of_node g n with
        | some c => spec_net_flux g alf n / g.area_of_cell.getD c 0
        | none => spec_net_flux g alf n)) := by
  rw [flux_divergence_eq_spec g hwf alf hlen]
  rfl

/-- Witness for C1's amended theorem at the concrete grid `cexFluxGrid`. -/
theorem flux_divergence_at_nodes_spec_witness :
    cexFluxGrid.WF ∧ ([(1 : ℚ)].length = cexFluxGrid.number_of_active_links) ∧
    calculate_flux_divergence_at_nodes cexFluxGrid [1] =
      Except.ok ((List.range cexFluxGrid.number_of_nodes).map (fun n =>
        match cell_of_node cexFluxGrid n with
        | some c => spec_net_flux cexFluxGrid [1] n / cexFluxGrid.area_of_cell.getD c 0
        | none => spec_net_flux cexFluxGrid [1] n)) :=
  ⟨by unfold FluxGrid.WF; decide, by decide,
    flux_divergence_at_nodes_spec cexFluxGrid (by unfold FluxGrid.WF; decide) [1] (by decide)⟩

/-- C7: the operator signals an error exactly when the supplied flux
array's length differs from the grid's number of active links; a wrong-size
array is never silently accepted. -/
theorem flux_divergence_length_guard (g : FluxGrid) (alf : List ℚ) :
    (calculate_flux_divergence_at_nodes g alf =
        Except.error "incorrect length of active_link_flux array" ↔
      alf.length ≠ g.number_of_active_links) ∧
    (∀ res, calculate_flux_divergence_at_nodes g alf = Except.ok res →
      alf.length = g.number_of_active_links) := by
  unfold calculate_flux_divergence_at_nodes
  by_cases h : alf.length = g.number_of_active_links
  · rw [if_pos h]
    exact ⟨⟨fun hc => absurd hc (by simp), fun hc => absurd h hc⟩, fun _ _ => h⟩
  · rw [if_neg h]
    exact ⟨⟨fun _ => h, fun _ => rfl⟩, fun _ hc => absurd hc (by simp)⟩

/-- Witness for C7 at a concrete mismatched call: an empty flux array on a
grid with one active link is rejected. -/
theorem flux_divergence_length_guard_witness :
    calculate_flux_divergence_at_nodes cexFluxGrid [] =
      Except.error "incorrect length of active_link_flux array" :=
  (flux_divergence_length_guard cexFluxGrid []).1.mpr (by decide)

/-! ### C2: uniform flux with fully closed boundaries -/

/-- Number of occurrences of entry `k` in the first `nn` columns of the
row-major matrix `m`. -/
def id_count (m : List (List Int)) (nn : ℕ) (k : Int) : ℕ :=
  ∑ i ∈ Finset.range m.length, ∑ n ∈ Finset.range nn,
    if (m.getD i []).getD n (-1) = k then 1 else 0

/-- Modelled from the spec: the active-link set and the inlink/outlink
matrices are built in `landlab/grid/base.py`, which is not part of this
source slice.  Per spec §4.5 each matrix column holds the active-link ids
entering/leaving that node, and with a *fully closed* boundary every active
link joins two core (cell-owning) nodes, so a node without a cell has only
sentinel `-1` entries in both matrices. -/
def fully_closed (g : FluxGrid) : Prop :=
  ∀ i < g.node_active_inlink_matrix.length, ∀ n < g.number_of_nodes,
    cell_of_node g n = none →
      (g.node_active_inlink_matrix.getD i []).getD n (-1) = -1 ∧
      (g.node_active_outlink_matrix.getD i []).getD n (-1) = -1

/-- A fully closed grid: nodes 0 and 1 are core (cells 0, 1 of unit area),
nodes 2 and 3 are closed boundary nodes with no cell and no active links;
the single active link runs from node 0 to node 1. -/
def closedCexGrid : FluxGrid where
  number_of_nodes := 4
  number_of_active_links := 1
  face_width := [1]
  node_active_inlink_matrix := [[-1, 0, -1, -1]]
  node_active_outlink_matrix := [[0, -1, -1, -1]]
  node_at_cell := [0, 1]
  core_cells := [0, 1]
  area_of_cell := [1, 1]

lemma getD_map_range (f : ℕ → ℚ) (m n : ℕ) (d : ℚ) (h : n < m) :
    ((List.range m).map f).getD n d = f n := by
  rw [List.getD_eq_getElem _ _ (by simpa using h), List.getElem_map, List.getElem_range]

/-- For a core cell `c`, `cell_of_node` at its owning node yields `c`
itself (the matching cell is unique by injectivity). -/
lemma cell_of_node_at_cell (g : FluxGrid) (hwf : g.WF) (c : ℕ) (hc : c ∈ g.core_cells) :
    cell_of_node g (g.node_at_cell.getD c 0) = some c := by
  obtain ⟨-, -, -, -, -, -, -, -, -, hinj⟩ := hwf
  have hsome : (g.core_cells.find?
      (fun x => g.node_at_cell.getD x 0 == g.node_at_cell.getD c 0)).isSome := by
    rw [List.find?_isSome]
    exact ⟨c, hc, by simp⟩
  obtain ⟨c₀, hc₀⟩ := Option.isSome_iff_exists.mp hsome
  have hmem := List.mem_of_find?_eq_some hc₀
  have hpred := List.find?_some hc₀
  have : c₀ = c := hinj c₀ hmem c hc (by simpa using hpred)
  subst this
  exact hc₀

/-- Expanding a well-formed matrix entry's face flux as an indicator sum
over all active-link ids. -/
lemma face_flux_indicator (alf fw : List ℚ) (L : ℕ) (hal : alf.length = L) (e : Int)
    (he : e = -1 ∨ (0 ≤ e ∧ e < (L : Int))) :
    face_flux alf fw e =
      ∑ k ∈ Finset.range L, if e = (k : Int) then alf.getD k 0 * fw.getD k 0 else 0 := by
  rcases he with he | ⟨h0, hlt⟩
  · subst he
    rw [face_flux, if_neg (by norm_num)]
    exact (Finset.sum_eq_zero (fun k _ => if_neg (by omega))).symm
  · rw [face_flux, if_pos (by constructor <;> omega)]
    rw [Finset.sum_eq_single e.toNat]
    · rw [if_pos (by omega)]
    · intro b _ hb
      rw [if_neg (by omega)]
    · intro habs
      exact absurd (Finset.mem_range.mpr (by omega)) habs

/-- Summing all buffered face fluxes read through a well-formed matrix in
which every active link occurs exactly once gives the total face flux. -/
lemma matrix_flux_sum (m : List (List Int)) (nn L : ℕ) (alf fw : List ℚ)
    (hal : alf.length = L)
    (hent : ∀ row ∈ m, ∀ e ∈ row, e = -1 ∨ (0 ≤ e ∧ e < (L : Int)))
    (h1 : ∀ k < L, id_count m nn (k : Int) = 1) :
    ∑ n ∈ Finset.range nn,
        (m.map (fun row => face_flux alf fw (row.getD n (-1)))).sum =
      ∑ k ∈ Finset.range L, alf.getD k 0 * fw.getD k 0 := by
  have hwfentry : ∀ i n : ℕ, (m.getD i []).getD n (-1) = -1 ∨
      (0 ≤ (m.getD i []).getD n (-1) ∧ (m.getD i []).getD n (-1) < (L : Int)) := by
    intro i n
    rcases Nat.lt_or_ge i m.length with hi | hi
    · rcases Nat.lt_or_ge n (m.getD i []).length with hn | hn
      · have hrow : m.getD i [] ∈ m := by
          rw [List.getD_eq_getElem _ _ hi]
          exact List.getElem_mem hi
        have hel : (m.getD i []).getD n (-1) ∈ m.getD i [] := by
          rw [List.getD_eq_getElem _ _ hn]
          exact List.getElem_mem hn
        exact hent _ hrow _ hel
      · left
        exact List.getD_eq_default _ _ hn
    · left
      rw [List.getD_eq_default _ _ hi]
      exact List.getD_eq_default _ _ (Nat.zero_le n)
  calc
    ∑ n ∈ Finset.range nn,
        (m.map (fun row => face_flux alf fw (row.getD n (-1)))).sum
      = ∑ n ∈ Finset.range nn, ∑ i ∈ Finset.range m.length,
          face_flux alf fw ((m.getD i []).getD n (-1)) := by
        refine Finset.sum_congr rfl (fun n _ => ?_)
        exact sum_map_eq_range_sum m _ ([] : List Int)
    _ = ∑ i ∈ Finset.range m.length, ∑ n ∈ Finset.range nn,
          face_flux alf fw ((m.getD i []).getD n (-1)) := Finset.sum_comm
    _ = ∑ i ∈ Finset.range m.length, ∑ n ∈ Finset.range nn, ∑ k ∈ Finset.range L,
          if (m.getD i []).getD n (-1) = (k : Int)
          then alf.getD k 0 * fw.getD k 0 else 0 := by
        refine Finset.sum_congr rfl (fun i _ => Finset.sum_congr rfl (fun n _ => ?_))
        exact face_flux_indicator alf fw L hal _ (hwfentry i n)
    _ = ∑ k ∈ Finset.range L, ∑ i ∈ Finset.range m.length, ∑ n ∈ Finset.range nn,
          if (m.getD i []).getD n (-1) = (k : Int)
          then alf.getD k 0 * fw.getD k 0 else 0 := by
        have hstep : ∀ i ∈ Finset.range m.length,
            (∑ n ∈ Finset.range nn, ∑ k ∈ Finset.range L,
              if (m.getD i []).getD n (-1) = (k : Int)
              then alf.getD k 0 * fw.getD k 0 else 0) =
            ∑ k ∈ Finset.range L, ∑ n ∈ Finset.range nn,
              if (m.getD i []).getD n (-1) = (k : Int)
              then alf.getD k 0 * fw.getD k 0 else 0 :=
          fun i _ => Finset.sum_comm
        rw [Finset.sum_congr rfl hstep]
        exact Finset.sum_comm
    _ = ∑ k ∈ Finset.range L, alf.getD k 0 * fw.getD k 0 := by
        refine Finset.sum_congr rfl (fun k hk => ?_)
        have hcast : ∀ i n : ℕ,
            (if (m.getD i []).getD n (-1) = (k : Int)
             then alf.getD k 0 * fw.getD k 0 else 0) =
            alf.getD k 0 * fw.getD k 0 *
              (if (m.getD i []).getD n (-1) = (k : Int) then (1 : ℚ) else 0) := by
          intro i n
          by_cases h : (m.getD i []).getD n (-1) = (k : Int) <;> simp [h]
        simp only [hcast]
        have hmulsum : ∀ i ∈ Finset.range m.length,
            ∑ n ∈ Finset.range nn,
              alf.getD k 0 * fw.getD k 0 *
                (if (m.getD i []).getD n (-1) = (k : Int) then (1 : ℚ) else 0) =
            alf.getD k 0 * fw.getD k 0 * ∑ n ∈ Finset.range nn,
              (if (m.getD i []).getD n (-1) = (k : Int) then (1 : ℚ) else 0) :=
          fun i _ => (Finset.mul_sum _ _ _).symm
        rw [Finset.sum_congr rfl hmulsum, ← Finset.mul_sum]
        have hcount : ∑ i ∈ Finset.range m.length, ∑ n ∈ Finset.range nn,
            (if (m.getD i []).getD n (-1) = (k : Int) then (1 : ℚ) else 0) =
            ((id_count m nn (k : Int) : ℕ) : ℚ) := by
          unfold id_count
          push_cast
          rfl
        rw [hcount, h1 k (Finset.mem_range.mp hk)]
        norm_num

/-- At a node without a cell on a fully closed grid, the net total face
flux is zero: every matrix entry in that node's column is the sentinel. -/
lemma spec_net_flux_closed_nocell (g : FluxGrid) (hwf : g.WF) (alf : List ℚ)
    (hclosed : fully_closed g) (n : ℕ) (hn : n < g.number_of_nodes)
    (hcell : cell_of_node g n = none) :
    spec_net_flux g alf n = 0 := by
  obtain ⟨-, hrows, -, -, -, -, -, -, -, -⟩ := hwf
  unfold spec_net_flux
  rw [sum_map_eq_range_sum g.node_active_outlink_matrix _ ([] : List Int),
    sum_map_eq_range_sum g.node_active_inlink_matrix _ ([] : List Int)]
  have hout0 : ∀ i ∈ Finset.range g.node_active_outlink_matrix.length,
      face_flux alf g.face_width ((g.node_active_outlink_matrix.getD i []).getD n (-1))
        = 0 := by
    intro i hi
    have hi' : i < g.node_active_inlink_matrix.length := by
      rw [← hrows]
      exact Finset.mem_range.mp hi
    rw [(hclosed i hi' n hn hcell).2, face_flux, if_neg (by norm_num)]
  have hin0 : ∀ i ∈ Finset.range g.node_active_inlink_matrix.length,
      face_flux alf g.face_width ((g.node_active_inlink_matrix.getD i []).getD n (-1))
        = 0 := by
    intro i hi
    rw [(hclosed i (Finset.mem_range.mp hi) n hn hcell).1, face_flux,
      if_neg (by norm_num)]
  rw [Finset.sum_congr rfl hout0, Finset.sum_congr rfl hin0]
  simp

/-- C2 (amended): on a well-formed, *fully closed* grid in which every
active link is recorded exactly once in each matrix, a spatially uniform
per-active-link flux field conserves mass *globally*: the area-weighted sum
of the returned divergences over all core cells is exactly 0.  (Pointwise
zero divergence at each core node fails; see the counterexample.) -/
theorem closed_uniform_flux_conservation (g : FluxGrid) (hwf : g.WF) (φ : ℚ)
    (hclosed : fully_closed g)
    (hout1 : ∀ k < g.number_of_active_links,
      id_count g.node_active_outlink_matrix g.number_of_nodes (k : Int) = 1)
    (hin1 : ∀ k < g.number_of_active_links,
      id_count g.node_active_inlink_matrix g.number_of_nodes (k : Int) = 1)
    (harea : ∀ c ∈ g.core_cells, g.area_of_cell.getD c 0 ≠ 0)
    (res : List ℚ)
    (hres : calculate_flux_divergence_at_nodes g
      (List.replicate g.number_of_active_links φ) = Except.ok res) :
    (g.core_cells.map (fun c =>
      res.getD (g.node_at_cell.getD c 0) 0 * g.area_of_cell.getD c 0)).sum = 0 := by
  have hlen : (List.replicate g.number_of_active_links φ).length =
      g.number_of_active_links := by simp
  rw [flux_divergence_eq_spec g hwf (List.replicate g.number_of_active_links φ) hlen]
    at hres
  have hres' : res = (List.range g.number_of_nodes).map
      (spec_divergence g (List.replicate g.number_of_active_links φ)) :=
    (Except.ok.injEq _ _ ▸ congrArg id hres).symm ▸ by
      cases hres
      rfl
  obtain ⟨hfw, hrows, hinlen, houtlen, hinent, houtent, hcidx, hcnode, hnd, hinj⟩ := hwf
  set alf := List.replicate g.number_of_active_links φ with half
  have hterm : ∀ c ∈ g.core_cells,
      res.getD (g.node_at_cell.getD c 0) 0 * g.area_of_cell.getD c 0 =
      spec_net_flux g alf (g.node_at_cell.getD c 0) := by
    intro c hc
    rw [hres', getD_map_range _ _ _ _ (hcnode c hc)]
    unfold spec_divergence
    rw [cell_of_node_at_cell g
      ⟨hfw, hrows, hinlen, houtlen, hinent, houtent, hcidx, hcnode, hnd, hinj⟩ c hc]
    exact div_mul_cancel₀ _ (harea c hc)
  rw [List.map_congr_left hterm]
  have himage : (g.core_cells.map
      (fun c => spec_net_flux g alf (g.node_at_cell.getD c 0))).sum =
      ∑ n ∈ Finset.image (fun c => g.node_at_cell.getD c 0) g.core_cells.toFinset,
        spec_net_flux g alf n := by
    rw [← List.sum_toFinset _ hnd]
    exact (Finset.sum_image (fun x hx y hy hxy =>
      hinj x (List.mem_toFinset.mp hx) y (List.mem_toFinset.mp hy) hxy)).symm
  rw [himage]
  have hsubset : Finset.image (fun c => g.node_at_cell.getD c 0) g.core_cells.toFinset ⊆
      Finset.range g.number_of_nodes := by
    intro n hnmem
    obtain ⟨c, hc, hcn⟩ := Finset.mem_image.mp hnmem
    rw [Finset.mem_range, ← hcn]
    exact hcnode c (List.mem_toFinset.mp hc)
  rw [Finset.sum_subset hsubset (fun n hn hnot => ?_)]
  · have hout := matrix_flux_sum g.node_active_outlink_matrix g.number_of_nodes
      g.number_of_active_links alf g.face_width (by simp [half]) houtent hout1
    have hin := matrix_flux_sum g.node_active_inlink_matrix g.number_of_nodes
      g.number_of_active_links alf g.face_width (by simp [half]) hinent hin1
    unfold spec_net_flux
    rw [Finset.sum_sub_distrib, hout, hin, sub_self]
  · have hcell : cell_of_node g n = none := by
      rcases hc : cell_of_node g n with _ | c₀
      · rfl
      · exfalso
        have hmem := List.mem_of_find?_eq_some hc
        have hpred := List.find?_some hc
        refine hnot (Finset.mem_image.mpr ⟨c₀, List.mem_toFinset.mpr hmem, ?_⟩)
        simpa using hpred
    exact spec_net_flux_closed_nocell g
      ⟨hfw, hrows, hinlen, houtlen, hinent, houtent, hcidx, hcnode, hnd, hinj⟩
      alf hclosed n (Finset.mem_range.mp hn) hcell

/-- Concrete evaluation of the operator on the fully closed example grid:
with uniform unit flux, core node 0 gets divergence `1` and core node 1
gets `-1`; the two closed boundary nodes get `0`. -/
lemma closedCex_eval :
    calculate_flux_divergence_at_nodes closedCexGrid
      (List.replicate closedCexGrid.number_of_active_links 1) =
      Except.ok [1, -1, 0, 0] := by
  rw [show List.replicate closedCexGrid.number_of_active_links (1 : ℚ) = [1] from rfl]
  rw [flux_divergence_eq_spec closedCexGrid (by unfold FluxGrid.WF; decide) [1]
    (by decide)]
  have h0 : spec_divergence closedCexGrid [1] 0 = 1 := by
    simp [spec_divergence, cell_of_node, spec_net_flux, face_flux, closedCexGrid]
  have h1 : spec_divergence closedCexGrid [1] 1 = -1 := by
    simp [spec_divergence, cell_of_node, spec_net_flux, face_flux, closedCexGrid]
  have h2 : spec_divergence closedCexGrid [1] 2 = 0 := by
    simp [spec_divergence, cell_of_node, spec_net_flux, face_flux, closedCexGrid]
  have h3 : spec_divergence closedCexGrid [1] 3 = 0 := by
    simp [spec_divergence, cell_of_node, spec_net_flux, face_flux, closedCexGrid]
  have hr : List.range closedCexGrid.number_of_nodes = [0, 1, 2, 3] := rfl
  rw [hr, List.map_cons, List.map_cons, List.map_cons, List.map_cons, List.map_nil,
    h0, h1, h2, h3]

/-- C2 original-claim counterexample: a fully closed, well-formed grid and
a uniform unit flux field for which the operator returns divergence `1`,
not `0`, at the interior (core) node 0. -/
theorem closed_uniform_pointwise_counterexample :
    closedCexGrid.WF ∧ fully_closed closedCexGrid ∧
    cell_of_node closedCexGrid 0 = some 0 ∧
    calculate_flux_divergence_at_nodes closedCexGrid
      (List.replicate closedCexGrid.number_of_active_links 1) =
      Except.ok [1, -1, 0, 0] ∧
    ((1 : ℚ) ≠ 0) :=
  ⟨by unfold FluxGrid.WF; decide, by unfold fully_closed; decide, by decide,
    closedCex_eval, by norm_num⟩

/-- Witness for C2's amended conservation theorem on the concrete closed
grid: `1·1 + (-1)·1 = 0`. -/
theorem closed_uniform_flux_conservation_witness :
    (closedCexGrid.core_cells.map (fun c =>
      ([1, -1, 0, 0] : List ℚ).getD (closedCexGrid.node_at_cell.getD c 0) 0 *
        closedCexGrid.area_of_cell.getD c 0)).sum = 0 :=
  closed_uniform_flux_conservation closedCexGrid (by unfold FluxGrid.WF; decide) 1
    (by unfold fully_closed; decide) (by decide) (by decide) (by decide)
    [1, -1, 0, 0] closedCex_eval

/-! ### Mappers (`src/landlab/grid/mappers.py`): upwind and min/max node-to-link -/

/-- The per-node link tables read by the upwind mappers: `links_at_node`
(link ids, `-1` padding) and the parallel `link_dirs_at_node`
(`1` = link points into the node, `-1` = link points away, `0` = padding),
row `n` for node `n`. -/
structure LinkNodeGrid where
  links_at_node : List (List Int)
  link_dirs_at_node : List (List Int)

/-- Row `n` of `var_name[grid.links_at_node] * grid.link_dirs_at_node`:
each link value is read with numpy wrap-around (padding id `-1` reads the
last link value) and multiplied by the signed direction, so padded slots
contribute `value * 0 = 0`. -/
def values_at_links_row (g : LinkNodeGrid) (var : List ℚ) (n : ℕ) : List ℚ :=
  List.zipWith (fun l d => np_get var l * (d : ℚ))
    (g.links_at_node.getD n []) (g.link_dirs_at_node.getD n [])

/-- `map_upwind_node_link_max_to_node` (`mappers.py`, lines 739-748):
`np.amax(-values_at_links, axis=1)`. -/
def map_upwind_node_link_max_to_node (g : LinkNodeGrid) (var : List ℚ) : List ℚ :=
  (List.range g.links_at_node.length).map
    (fun n => np_amax ((values_at_links_row g var n).map (fun v => -v)))

/-- The strictly positive negated products at node `n` — the entries the
upwind mean keeps (`vals_above_zero = vals_in_positive > 0.`). -/
def upwind_positive_vals (g : LinkNodeGrid) (var : List ℚ) (n : ℕ) : List ℚ :=
  ((values_at_links_row g var n).map (fun v => -v)).filter (fun v => decide (0 < v))

/-- `map_upwind_node_link_mean_to_node` (`mappers.py`, lines 878-892):
sum and count the strictly positive negated products; `total/count` with
the `0/0 = nan` result replaced by `0` becomes the zero-count branch. -/
def map_upwind_node_link_mean_to_node (g : LinkNodeGrid) (var : List ℚ) : List ℚ :=
  (List.range g.links_at_node.length).map (fun n =>
    if (upwind_positive_vals g var n).length = 0 then 0
    else (upwind_positive_vals g var n).sum / ((upwind_positive_vals g var n).length : ℚ))

lemma foldl_max_le (l : List ℚ) (a c : ℚ) (ha : a ≤ c) (hl : ∀ v ∈ l, v ≤ c) :
    l.foldl max a ≤ c := by
  induction l generalizing a with
  | nil => exact ha
  | cons x t ih =>
    exact ih (max a x) (max_le ha (hl x (List.mem_cons_self x t)))
      (fun v hv => hl v (List.mem_cons_of_mem x hv))

lemma le_foldl_max (l : List ℚ) (a x : ℚ) (hx : x ≤ a ∨ x ∈ l) : x ≤ l.foldl max a := by
  induction l generalizing a with
  | nil =>
    rcases hx with hx | hx
    · exact hx
    · simp at hx
  | cons y t ih =>
    rcases hx with hx | hx
    · exact ih (max a y) (Or.inl (le_trans hx (le_max_left a y)))
    · rcases List.mem_cons.mp hx with hx | hx
      · exact ih (max a y) (Or.inl ((le_of_eq hx).trans (le_max_right a y)))
      · exact ih (max a y) (Or.inr hx)

lemma np_amax_nonpos (l : List ℚ) (hl : ∀ v ∈ l, v ≤ 0) : np_amax l ≤ 0 := by
  cases l with
  | nil => exact le_refl 0
  | cons h t =>
    exact foldl_max_le t h 0 (hl h (List.mem_cons_self h t))
      (fun v hv => hl v (List.mem_cons_of_mem h hv))

lemma le_np_amax (l : List ℚ) (x : ℚ) (hx : x ∈ l) : x ≤ np_amax l := by
  cases l with
  | nil => simp at hx
  | cons h t =>
    rcases List.mem_cons.mp hx with hx | hx
    · exact le_foldl_max t h x (Or.inl (le_of_eq hx))
    · exact le_foldl_max t h x (Or.inr hx)

lemma getD_map_general {α : Type} (l : List α) (f : α → ℚ) (i : ℕ) (d : α)
    (hi : i < l.length) : (l.map f).getD i 0 = f (l.getD i d) := by
  rw [List.getD_eq_getElem _ _ (by simpa using hi), List.getElem_map,
    List.getD_eq_getElem _ _ hi]

/-- One node of degree 1 at each end of a single link `0 → 1` carrying
value `-1`: node 0 has no upwind link, yet the upwind max records `-1`. -/
def upwindCexGrid : LinkNodeGrid where
  links_at_node := [[0], [0]]
  link_dirs_at_node := [[-1], [1]]

lemma upwindCex_row0 :
    (values_at_links_row upwindCexGrid [-1] 0).map (fun v => -v) = [-1] := by
  simp [values_at_links_row, np_get, upwindCexGrid]

lemma upwindCex_row1 :
    (values_at_links_row upwindCexGrid [-1] 1).map (fun v => -v) = [1] := by
  simp [values_at_links_row, np_get, upwindCexGrid]

/-- C6 original-claim counterexample: at node 0 (its single link points
away, so it has no upwind link — every negated product is `≤ 0`), the
upwind max records `-1`, not `0`. -/
theorem upwind_max_counterexample :
    (∀ v ∈ (values_at_links_row upwindCexGrid [-1] 0).map (fun v => -v), v ≤ 0) ∧
    map_upwind_node_link_max_to_node upwindCexGrid [-1] = [-1, 1] ∧
    ((-1 : ℚ) ≠ 0) := by
  refine ⟨?_, ?_, by norm_num⟩
  · rw [upwindCex_row0]
    intro v hv
    rw [List.mem_singleton.mp hv]
    norm_num
  · unfold map_upwind_node_link_max_to_node
    rw [show List.range upwindCexGrid.links_at_node.length = [0, 1] from rfl,
      List.map_cons, List.map_cons, List.map_nil, upwindCex_row0, upwindCex_row1]
    rfl

/-- C6 (amended): at a node `n` with no upwind link (every entry of
`-values_at_links` is `≤ 0`), the upwind *mean* records exactly `0` (the
mean keeps only strictly positive entries and none qualify), while the
upwind *max* records the largest negated product — a value `≤ 0` that
equals `0` exactly when some entry is `0` (in particular whenever the
node's row has a padded slot). -/
theorem upwind_no_upwind_link (g : LinkNodeGrid) (var : List ℚ) (n : ℕ)
    (hn : n < g.links_at_node.length)
    (hno : ∀ v ∈ (values_at_links_row g var n).map (fun v => -v), v ≤ 0) :
    (map_upwind_node_link_mean_to_node g var).getD n 0 = 0 ∧
    (map_upwind_node_link_max_to_node g var).getD n 0 ≤ 0 ∧
    ((0 : ℚ) ∈ (values_at_links_row g var n).map (fun v => -v) →
      (map_upwind_node_link_max_to_node g var).getD n 0 = 0) := by
  have hmax : (map_upwind_node_link_max_to_node g var).getD n 0 =
      np_amax ((values_at_links_row g var n).map (fun v => -v)) := by
    unfold map_upwind_node_link_max_to_node
    exact getD_map_range _ _ _ _ hn
  have hmean : (map_upwind_node_link_mean_to_node g var).getD n 0 =
      (if (upwind_positive_vals g var n).length = 0 then 0
       else (upwind_positive_vals g var n).sum /
         ((upwind_positive_vals g var n).length : ℚ)) := by
    unfold map_upwind_node_link_mean_to_node
    exact getD_map_range _ _ _ _ hn
  have hempty : upwind_positive_vals g var n = [] := by
    unfold upwind_positive_vals
    rw [List.filter_eq_nil_iff]
    intro v hv
    simpa using not_lt.mpr (hno v hv)
  refine ⟨?_, ?_, ?_⟩
  · rw [hmean, hempty]
    rfl
  · rw [hmax]
    exact np_amax_nonpos _ hno
  · intro h0
    rw [hmax]
    exact le_antisymm (np_amax_nonpos _ hno) (le_np_amax _ 0 h0)

/-- Witness for C6's amended theorem at the concrete grid `upwindCexGrid`,
node 0 with link value `-1`. -/
theorem upwind_no_upwind_link_witness :
    (map_upwind_node_link_mean_to_node upwindCexGrid [-1]).getD 0 0 = 0 ∧
    (map_upwind_node_link_max_to_node upwindCexGrid [-1]).getD 0 0 ≤ 0 ∧
    ((0 : ℚ) ∈ (values_at_links_row upwindCexGrid [-1] 0).map (fun v => -v) →
      (map_upwind_node_link_max_to_node upwindCexGrid [-1]).getD 0 0 = 0) :=
  upwind_no_upwind_link upwindCexGrid [-1] 0 (by decide)
    (by
      rw [upwindCex_row0]
      intro v hv
      rw [List.mem_singleton.mp hv]
      norm_num)

/-- `map_value_at_min_node_to_link` (`mappers.py`, lines 416-429):
`np.where(tail_control < head_control, tail_vals, head_vals)` per link;
links are the (tail, head) pairs, node fields are `control` and `value`. -/
def map_value_at_min_node_to_link (links : List (ℕ × ℕ)) (control value : ℕ → ℚ) :
    List ℚ :=
  links.map (fun ln => if control ln.1 < control ln.2 then value ln.1 else value ln.2)

/-- `map_value_at_max_node_to_link` (`mappers.py`, lines 485-498):
`np.where(tail_control > head_control, tail_vals, head_vals)` per link. -/
def map_value_at_max_node_to_link (links : List (ℕ × ℕ)) (control value : ℕ → ℚ) :
    List ℚ :=
  links.map (fun ln => if control ln.1 > control ln.2 then value ln.1 else value ln.2)

/-- C9: when the control values at a link's tail and head nodes are equal,
both the min-node and the max-node mapper select the *head* node's value
(the `np.where` condition is strict, so a tie falls through to the head). -/
theorem map_value_tie_prefers_head (links : List (ℕ × ℕ)) (control value : ℕ → ℚ)
    (i : ℕ) (hi : i < links.length)
    (htie : control (links.getD i (0, 0)).1 = control (links.getD i (0, 0)).2) :
    (map_value_at_min_node_to_link links control value).getD i 0 =
      value (links.getD i (0, 0)).2 ∧
    (map_value_at_max_node_to_link links control value).getD i 0 =
      value (links.getD i (0, 0)).2 := by
  constructor
  · unfold map_value_at_min_node_to_link
    rw [getD_map_general links _ i (0, 0) hi, if_neg (by rw [htie]; exact lt_irrefl _)]
  · unfold map_value_at_max_node_to_link
    rw [getD_map_general links _ i (0, 0) hi, if_neg (by rw [htie]; exact lt_irrefl _)]

/-- Witness for C9 on a single link `(0, 1)` with constant control field:
both mappers pick the head node's value `1`. -/
theorem map_value_tie_prefers_head_witness :
    (map_value_at_min_node_to_link [(0, 1)] (fun _ => 0) (fun n => (n : ℚ))).getD 0 0 =
      (fun n => (n : ℚ)) (([(0, 1)] : List (ℕ × ℕ)).getD 0 (0, 0)).2 ∧
    (map_value_at_max_node_to_link [(0, 1)] (fun _ => 0) (fun n => (n : ℚ))).getD 0 0 =
      (fun n => (n : ℚ)) (([(0, 1)] : List (ℕ × ℕ)).getD 0 (0, 0)).2 :=
  map_value_tie_prefers_head [(0, 1)] (fun _ => 0) (fun n => (n : ℚ)) 0 (by decide) rfl

/-! ### Grid construction (`src/landlab/grid/voronoi.py`): point sorting -/

/-- The canonical point order: ascending x, ties broken by ascending y. -/
def ptLex (p q : ℚ × ℚ) : Prop := p.1 < q.1 ∨ (p.1 = q.1 ∧ p.2 ≤ q.2)

instance decPtLex : DecidableRel ptLex := fun p q =>
  inferInstanceAs (Decidable (p.1 < q.1 ∨ (p.1 = q.1 ∧ p.2 ≤ q.2)))

instance : IsTotal (ℚ × ℚ) ptLex where
  total a b := by
    rcases lt_trichotomy a.1 b.1 with h | h | h
    · exact Or.inl (Or.inl h)
    · rcases le_total a.2 b.2 with h2 | h2
      · exact Or.inl (Or.inr ⟨h, h2⟩)
      · exact Or.inr (Or.inr ⟨h.symm, h2⟩)
    · exact Or.inr (Or.inl h)

instance : IsTrans (ℚ × ℚ) ptLex where
  trans a b c hab hbc := by
    rcases hab with hab | ⟨hab1, hab2⟩
    · rcases hbc with hbc | ⟨hbc1, hbc2⟩
      · exact Or.inl (lt_trans hab hbc)
      · exact Or.inl (hbc1 ▸ hab)
    · rcases hbc with hbc | ⟨hbc1, hbc2⟩
      · exact Or.inl (hab1 ▸ hbc)
      · exact Or.inr ⟨hab1.trans hbc1, hab2.trans hbc2⟩

/-- Modelled from the spec: `sort_points_by_x_then_y` lives in
`landlab/core/utils.py`, which is not part of this source slice.  Per spec
§4.1 it reorders the points by ascending x, ties broken by ascending y,
with a stable secondary key; a stable insertion sort under the
lexicographic order realises exactly that. -/
def sort_points_by_x_then_y (pts : List (ℚ × ℚ)) : List (ℚ × ℚ) :=
  List.insertionSort ptLex pts

/-- The node-coordinate list fixed by `VoronoiDelaunayGrid._initialize`
(`voronoi.py`, lines 178-216): equal-length check (`ValueError` on
mismatch), then the zipped points in sorted order; node `i`'s coordinates
for the grid's lifetime are entry `i` of this list. -/
def VoronoiDelaunayGrid_node_points (x y : List ℚ) : Except String (List (ℚ × ℚ)) :=
  if x.length = y.length then Except.ok (sort_points_by_x_then_y (x.zip y))
  else Except.error "x and y arrays must have the same size"

/-- C4: for equal-length coordinate arrays, construction succeeds and the
node-point list is a permutation of the input points, sorted by ascending
x with ties broken by ascending y, with node ids `0..N-1` given by list
position. -/
theorem grid_points_sorted_by_x_then_y (x y : List ℚ) (h : x.length = y.length) :
    ∃ pts, VoronoiDelaunayGrid_node_points x y = Except.ok pts ∧
      pts.length = x.length ∧ pts.Perm (x.zip y) ∧ pts.Sorted ptLex := by
  refine ⟨sort_points_by_x_then_y (x.zip y),
    by rw [VoronoiDelaunayGrid_node_points, if_pos h], ?_, ?_, ?_⟩
  · rw [sort_points_by_x_then_y, (List.perm_insertionSort ptLex _).length_eq]
    simp [h]
  · exact List.perm_insertionSort ptLex _
  · exact List.sorted_insertionSort ptLex _

/-- Witness for C4 on a concrete pair of arrays. -/
theorem grid_points_sorted_by_x_then_y_witness :
    ∃ pts, VoronoiDelaunayGrid_node_points [1, 0] [2, 3] = Except.ok pts ∧
      pts.length = ([1, 0] : List ℚ).length ∧
      pts.Perm (([1, 0] : List ℚ).zip [2, 3]) ∧ pts.Sorted ptLex :=
  grid_points_sorted_by_x_then_y [1, 0] [2, 3] (by decide)

/-! ### Link reorientation (`voronoi.py`, lines 592-646) -/

/-- Exact-arithmetic form of the flip test in `reorient_links_upper_right`:
the source computes `a = arctan2(dx, dy) + pi/4`, wraps `a` into
`(-pi, pi]` by subtracting `2*pi` when `a >= pi`, and flips where the
result is negative.  In exact arithmetic the wrapped angle is negative
exactly on `arctan2(dx, dy) ∈ (-pi, -pi/4) ∪ [3*pi/4, pi]`, i.e. exactly
when the rotated coordinate `dx + dy` is negative, or is zero with
`dy < 0` (the ray at `arctan2 = 3*pi/4`); `arctan2(0, 0) = 0` keeps the
degenerate zero vector unflipped, matching numpy. -/
def link_flip (dx dy : ℚ) : Bool :=
  decide (dx + dy < 0) || (decide (dx + dy = 0) && decide (dy < 0))

/-- One link's reorientation: swap tail and head where the flip test
fires. -/
def reorient_one (node_x node_y : ℕ → ℚ) (ln : ℕ × ℕ) : ℕ × ℕ :=
  if link_flip (node_x ln.2 - node_x ln.1) (node_y ln.2 - node_y ln.1)
  then (ln.2, ln.1) else ln

/-- `reorient_links_upper_right`: flip every link whose direction falls
outside the upper-right semicircle.  Links are (tail, head) pairs; the
source's parallel `node_at_link_tail` / `node_at_link_head` arrays are the
two projections. -/
def reorient_links_upper_right (node_x node_y : ℕ → ℚ) (links : List (ℕ × ℕ)) :
    List (ℕ × ℕ) :=
  links.map (reorient_one node_x node_y)

/-- Flipping a link makes its flip test false: the negated direction lands
inside the upper-right semicircle. -/
lemma link_flip_neg (dx dy : ℚ) (h : link_flip dx dy = true) :
    link_flip (-dx) (-dy) = false := by
  unfold link_flip at h ⊢
  simp only [Bool.or_eq_true, Bool.and_eq_true, decide_eq_true_eq] at h
  simp only [Bool.or_eq_false_iff, Bool.and_eq_false_iff, decide_eq_false_iff_not, not_lt]
  rcases h with h | ⟨h1, h2⟩
  · exact ⟨by linarith, Or.inl (by intro he; linarith)⟩
  · exact ⟨by linarith, Or.inr (by linarith)⟩

lemma reorient_one_idem (node_x node_y : ℕ → ℚ) (ln : ℕ × ℕ) :
    reorient_one node_x node_y (reorient_one node_x node_y ln) =
      reorient_one node_x node_y ln := by
  unfold reorient_one
  by_cases h : link_flip (node_x ln.2 - node_x ln.1) (node_y ln.2 - node_y ln.1) = true
  · rw [if_pos h]
    have hneg : link_flip (node_x ln.1 - node_x ln.2) (node_y ln.1 - node_y ln.2) =
        false := by
      have e1 : node_x ln.1 - node_x ln.2 = -(node_x ln.2 - node_x ln.1) := by ring
      have e2 : node_y ln.1 - node_y ln.2 = -(node_y ln.2 - node_y ln.1) := by ring
      rw [e1, e2]
      exact link_flip_neg _ _ h
    rw [if_neg (by simp [hneg])]
  · rw [if_neg h, if_neg h]

/-- C5: reorientation is idempotent — applying
`reorient_links_upper_right` twice yields the same tail and head arrays as
applying it once. -/
theorem reorient_links_idempotent (node_x node_y : ℕ → ℚ) (links : List (ℕ × ℕ)) :
    (reorient_links_upper_right node_x node_y
        (reorient_links_upper_right node_x node_y links)).map Prod.fst =
      (reorient_links_upper_right node_x node_y links).map Prod.fst ∧
    (reorient_links_upper_right node_x node_y
        (reorient_links_upper_right node_x node_y links)).map Prod.snd =
      (reorient_links_upper_right node_x node_y links).map Prod.snd := by
  have h : reorient_links_upper_right node_x node_y
      (reorient_links_upper_right node_x node_y links) =
      reorient_links_upper_right node_x node_y links := by
    unfold reorient_links_upper_right
    rw [List.map_map]
    exact List.map_congr_left (fun ln _ => reorient_one_idem node_x node_y ln)
  exact ⟨by rw [h], by rw [h]⟩

lemma getD_map_at {α β : Type} (l : List α) (f : α → β) (i : ℕ) (d : α) (db : β)
    (hi : i < l.length) : (l.map f).getD i db = f (l.getD i d) := by
  rw [List.getD_eq_getElem _ _ (by simpa using hi), List.getElem_map,
    List.getD_eq_getElem _ _ hi]

/-- C10: reorientation preserves the link count and every link's unordered
endpoint pair — each output link is the input link with tail and head
either kept or swapped. -/
theorem reorient_preserves_endpoints (node_x node_y : ℕ → ℚ) (links : List (ℕ × ℕ)) :
    (reorient_links_upper_right node_x node_y links).length = links.length ∧
    ∀ i, i < links.length →
      (reorient_links_upper_right node_x node_y links).getD i (0, 0) =
          links.getD i (0, 0) ∨
      (reorient_links_upper_right node_x node_y links).getD i (0, 0) =
          ((links.getD i (0, 0)).2, (links.getD i (0, 0)).1) := by
  constructor
  · simp [reorient_links_upper_right]
  · intro i hi
    unfold reorient_links_upper_right
    rw [getD_map_at links (reorient_one node_x node_y) i (0, 0) (0, 0) hi]
    unfold reorient_one
    by_cases h : link_flip (node_x (links.getD i (0, 0)).2 - node_x (links.getD i (0, 0)).1)
        (node_y (links.getD i (0, 0)).2 - node_y (links.getD i (0, 0)).1) = true
    · right
      rw [if_pos h]
    · left
      rw [if_neg h]

/-- Witness for C10 on one left-pointing link `(1, 0)` with `x`-coordinates
`0, 1`: the link is flipped, so the output pair is the swapped input. -/
theorem reorient_preserves_endpoints_witness :
    (reorient_links_upper_right (fun n => (n : ℚ)) (fun _ => 0) [(1, 0)]).length =
      ([(1, 0)] : List (ℕ × ℕ)).length ∧
    ((reorient_links_upper_right (fun n => (n : ℚ)) (fun _ => 0) [(1, 0)]).getD 0 (0, 0) =
        (([(1, 0)] : List (ℕ × ℕ)).getD 0 (0, 0)) ∨
      (reorient_links_upper_right (fun n => (n : ℚ)) (fun _ => 0) [(1, 0)]).getD 0 (0, 0) =
        ((([(1, 0)] : List (ℕ × ℕ)).getD 0 (0, 0)).2,
          (([(1, 0)] : List (ℕ × ℕ)).getD 0 (0, 0)).1)) :=
  ⟨(reorient_preserves_endpoints (fun n => (n : ℚ)) (fun _ => 0) [(1, 0)]).1,
    (reorient_preserves_endpoints (fun n => (n : ℚ)) (fun _ => 0) [(1, 0)]).2 0
      (by decide)⟩

/-! ### Patch queries (`voronoi.py`, lines 289-318 and 648-688) -/

/-- The python `nodata` argument: an integer (default `-1`) or one of the
string policies. -/
inductive NodataArg where
  | int (i : Int)
  | str (s : String)
deriving DecidableEq

/-- The mutable attributes of `VoronoiDelaunayGrid` that the patch query
reads and writes: the cached `_patches_at_node` table (present or not) and
whether the `set_bad_value` attribute has been created.  The patch table
itself is abstracted by a type `T` and a builder function; the claim under
check concerns only validation and caching. -/
structure PatchCacheState (T : Type) where
  patches_at_node_cache : Option T
  set_bad_value : Bool
deriving DecidableEq

/-- `create_patches_from_delaunay_diagram` (`voronoi.py`, lines 648-688):
the `nodata` chain accepts `-1`, `'bad_value'` and `'nan'` and raises
`ValueError('Do not recognise nodata value!')` otherwise; on success the
table (abstracted as `build nodata`) is computed and cached in
`_patches_at_node`. -/
def create_patches_from_delaunay_diagram {T : Type} (build : NodataArg → T)
    (st : PatchCacheState T) (nodata : NodataArg) :
    Except String (PatchCacheState T × T) :=
  if nodata = NodataArg.int (-1) ∨ nodata = NodataArg.str "bad_value" ∨
      nodata = NodataArg.str "nan" then
    Except.ok ({ st with patches_at_node_cache := some (build nodata) }, build nodata)
  else Except.error "Do not recognise nodata value!"

/-- `patches_at_node` (`voronoi.py`, lines 289-318): with the default
`nodata == -1` it returns the cache, building it on first access; with any
other `nodata` it builds (and sets the `set_bad_value` attribute) only when
that attribute does not yet exist, and otherwise returns the cached
`_patches_at_node` untouched. -/
def patches_at_node {T : Type} (build : NodataArg → T) (st : PatchCacheState T)
    (nodata : NodataArg) : Except String (PatchCacheState T × T) :=
  if nodata = NodataArg.int (-1) then
    match st.patches_at_node_cache with
    | some t => Except.ok (st, t)
    | none => create_patches_from_delaunay_diagram build st nodata
  else
    if st.set_bad_value = false then
      match create_patches_from_delaunay_diagram build st nodata with
      | Except.ok (st', t) => Except.ok ({ st' with set_bad_value := true }, t)
      | Except.error e => Except.error e
    else
      match st.patches_at_node_cache with
      | some t => Except.ok (st, t)
      | none => Except.error "AttributeError: _patches_at_node"

/-- C8 original-claim counterexample: after one *successful* call with
`nodata = 'nan'` (which sets `set_bad_value` and fills the cache), a later
call with the unrecognised option `'garbage'` returns the cached table
successfully instead of raising. -/
theorem patches_nodata_cached_counterexample :
    patches_at_node (fun _ => ()) ⟨none, false⟩ (NodataArg.str "nan") =
      Except.ok (⟨some (), true⟩, ()) ∧
    patches_at_node (fun _ => ()) ⟨some (), true⟩ (NodataArg.str "garbage") =
      Except.ok (⟨some (), true⟩, ()) ∧
    NodataArg.str "garbage" ≠ NodataArg.int (-1) ∧
    NodataArg.str "garbage" ≠ NodataArg.str "bad_value" ∧
    NodataArg.str "garbage" ≠ NodataArg.str "nan" := by
  refine ⟨rfl, rfl, by decide, by decide, by decide⟩

/-- C8 (amended): an unrecognised `nodata` option always makes
`create_patches_from_delaunay_diagram` raise, and makes `patches_at_node`
raise exactly when the `set_bad_value` attribute is not yet set; once a
previous successful non-default call has set it, a later call returns the
cached table without validating `nodata` at all. -/
theorem patches_nodata_validation {T : Type} (build : NodataArg → T)
    (st : PatchCacheState T) (nodata : NodataArg)
    (hbad : nodata ≠ NodataArg.int (-1) ∧ nodata ≠ NodataArg.str "bad_value" ∧
      nodata ≠ NodataArg.str "nan") :
    create_patches_from_delaunay_diagram build st nodata =
      Except.error "Do not recognise nodata value!" ∧
    (st.set_bad_value = false →
      patches_at_node build st nodata =
        Except.error "Do not recognise nodata value!") ∧
    (∀ t, st.set_bad_value = true → st.patches_at_node_cache = some t →
      patches_at_node build st nodata = Except.ok (st, t)) := by
  obtain ⟨h1, h2, h3⟩ := hbad
  have hcreate : create_patches_from_delaunay_diagram build st nodata =
      Except.error "Do not recognise nodata value!" := by
    unfold create_patches_from_delaunay_diagram
    rw [if_neg (by push_neg; exact ⟨h1, h2, h3⟩)]
  refine ⟨hcreate, ?_, ?_⟩
  · intro hflag
    unfold patches_at_node
    rw [if_neg h1, if_pos hflag, hcreate]
  · intro t hflag hcache
    unfold patches_at_node
    rw [if_neg h1, if_neg (by rw [hflag]; simp), hcache]

/-- Witness for C8's amended theorem at a concrete poisoned state. -/
theorem patches_nodata_validation_witness :
    create_patches_from_delaunay_diagram (fun _ => (7 : ℕ))
        ⟨some 7, true⟩ (NodataArg.str "garbage") =
      Except.error "Do not recognise nodata value!" ∧
    ((⟨some 7, true⟩ : PatchCacheState ℕ).set_bad_value = false →
      patches_at_node (fun _ => (7 : ℕ)) ⟨some 7, true⟩ (NodataArg.str "garbage") =
        Except.error "Do not recognise nodata value!") ∧
    (∀ t, (⟨some 7, true⟩ : PatchCacheState ℕ).set_bad_value = true →
      (⟨some 7, true⟩ : PatchCacheState ℕ).patches_at_node_cache = some t →
      patches_at_node (fun _ => (7 : ℕ)) ⟨some 7, true⟩ (NodataArg.str "garbage") =
        Except.ok (⟨some 7, true⟩, t)) :=
  patches_nodata_validation (fun _ => 7) ⟨some 7, true⟩ (NodataArg.str "garbage")
    ⟨by decide, by decide, by decide⟩

/-! ### Links and faces from the Voronoi diagram (`voronoi.py`, lines 491-590) -/

/-- The slice of a `scipy.spatial.Voronoi` object read by
`create_links_and_faces_from_voronoi_diagram`: generator points, Voronoi
vertices, and per-ridge generator-point pairs and ridge-vertex pairs
(`-1` marks the undefined vertex of an unbounded ridge). -/
structure VoronoiDiagramQ where
  points : List (ℚ × ℚ)
  vertices : List (ℚ × ℚ)
  ridge_points : List (ℕ × ℕ)
  ridge_vertices : List (Int × Int)

def SUSPICIOUSLY_BIG : ℚ := 40000000

/-- `is_valid_voronoi_ridge` (`voronoi.py`, lines 491-496): both ridge
vertices defined (not `-1`) and the largest coordinate magnitude of the
two vertices below `SUSPICIOUSLY_BIG`.  The source's `and` short-circuits,
so the vertex reads only happen when both indices are defined; the `getD`
defaults here are likewise never read in that case. -/
def is_valid_voronoi_ridge (vor : VoronoiDiagramQ) (n : ℕ) : Bool :=
  let rv := vor.ridge_vertices.getD n (-1, -1)
  let v1 := vor.vertices.getD rv.1.toNat (0, 0)
  let v2 := vor.vertices.getD rv.2.toNat (0, 0)
  decide (rv.1 ≠ -1) && decide (rv.2 ≠ -1) &&
    decide (max (max |v1.1| |v1.2|) (max |v2.1| |v2.2|) < SUSPICIOUSLY_BIG)

/-- The per-ridge midpoints `(points[rp0] + points[rp1]) / 2` used to sort
the links. -/
def link_midpoints (vor : VoronoiDiagramQ) : List (ℚ × ℚ) :=
  vor.ridge_points.map (fun rp =>
    (((vor.points.getD rp.1 (0, 0)).1 + (vor.points.getD rp.2 (0, 0)).1) / 2,
     ((vor.points.getD rp.1 (0, 0)).2 + (vor.points.getD rp.2 (0, 0)).2) / 2))

/-- Modelled from the spec: `argsort_points_by_x_then_y` lives in
`landlab/core/utils.py`, which is not part of this source slice.  Per spec
§4.3 the links are re-sorted by link-midpoint coordinate (x then y); a
stable insertion argsort of the index list under the midpoint order
realises that. -/
def argsort_points_by_x_then_y (pts : List (ℚ × ℚ)) : List ℕ :=
  List.insertionSort (fun i j => ptLex (pts.getD i (0, 0)) (pts.getD j (0, 0)))
    (List.range pts.length)

/-- The squared Euclidean distance between the two ridge vertices of ridge
`r` — the quantity under the square root in `face_width[j] =
sqrt(dx*dx + dy*dy)`. -/
def ridge_sq_width (vor : VoronoiDiagramQ) (r : ℕ) : ℚ :=
  let rv := vor.ridge_vertices.getD r (-1, -1)
  let v1 := vor.vertices.getD rv.1.toNat (0, 0)
  let v2 := vor.vertices.getD rv.2.toNat (0, 0)
  (v2.1 - v1.1) * (v2.1 - v1.1) + (v2.2 - v1.2) * (v2.2 - v1.2)

/-- `numpy.count_nonzero(numpy.array(vor.ridge_vertices) == -1)`: the
number of `-1` occurrences over all ridge-vertex pairs. -/
def num_undefined_ridge_vertices (vor : VoronoiDiagramQ) : ℕ :=
  (vor.ridge_vertices.map (fun rv =>
    (if rv.1 = -1 then 1 else 0) + (if rv.2 = -1 then 1 else 0))).sum

/-- `create_links_and_faces_from_voronoi_diagram` (`voronoi.py`, lines
498-590).  `num_active = num_links - #(-1 occurrences)` sizes the
`-1`-initialised `active_links` and `face_width` buffers; the loop over the
midpoint-sorted ridges overwrites `link_fromnode[i]`/`link_tonode[i]` for
every `i` and writes each valid ridge's link id and face width at the next
free slot `j`.  Functionally: the from/to arrays are full maps over the
sorted order, and the valid entries occupy the buffer prefix in loop order
with the untouched `-1` tail kept (`take` models the fixed buffer length; a
write past the buffer, possible only if some ridge had both vertices
undefined, which the back end never emits, would raise in numpy).  `sqrtq`
abstracts the geometry kernel's `sqrt`, applied to the squared ridge
length. -/
def create_links_and_faces_from_voronoi_diagram (sqrtq : ℚ → ℚ) (vor : VoronoiDiagramQ) :
    List ℕ × List ℕ × List Int × List ℚ :=
  ((List.range vor.ridge_points.length).map (fun i =>
      (vor.ridge_points.getD
        ((argsort_points_by_x_then_y (link_midpoints vor)).getD i 0) (0, 0)).1),
   (List.range vor.ridge_points.length).map (fun i =>
      (vor.ridge_points.getD
        ((argsort_points_by_x_then_y (link_midpoints vor)).getD i 0) (0, 0)).2),
   (((List.range vor.ridge_points.length).filter (fun i =>
        is_valid_voronoi_ridge vor
          ((argsort_points_by_x_then_y (link_midpoints vor)).getD i 0))).map
      (fun i : ℕ => (i : Int)) ++
    List.replicate ((vor.ridge_points.length - num_undefined_ridge_vertices vor) -
      ((List.range vor.ridge_points.length).filter (fun i =>
        is_valid_voronoi_ridge vor
          ((argsort_points_by_x_then_y (link_midpoints vor)).getD i 0))).length)
      (-1)).take (vor.ridge_points.length - num_undefined_ridge_vertices vor),
   (((List.range vor.ridge_points.length).filter (fun i =>
        is_valid_voronoi_ridge vor
          ((argsort_points_by_x_then_y (link_midpoints vor)).getD i 0))).map
      (fun i => sqrtq (ridge_sq_width vor
        ((argsort_points_by_x_then_y (link_midpoints vor)).getD i 0))) ++
    List.replicate ((vor.ridge_points.length - num_undefined_ridge_vertices vor) -
      ((List.range vor.ridge_points.length).filter (fun i =>
        is_valid_voronoi_ridge vor
          ((argsort_points_by_x_then_y (link_midpoints vor)).getD i 0))).length)
      (-1)).take (vor.ridge_points.length - num_undefined_ridge_vertices vor))

/-- A Voronoi diagram with a single ridge whose two vertices are both
defined but one lies outside the `SUSPICIOUSLY_BIG` bound: the ridge is
not valid, yet it is not counted as undefined, so the face buffer keeps a
`-1` slot owned by no active link. -/
def bigRidgeVor : VoronoiDiagramQ where
  points := [(0, 0), (1, 0)]
  vertices := [(0, 0), (50000000, 0)]
  ridge_points := [(0, 1)]
  ridge_vertices := [(0, 1)]

/-- C3 original-claim counterexample: on `bigRidgeVor` the returned face
and active-link arrays have one (garbage `-1`) entry each, while the
number of active links — ridges passing `is_valid_voronoi_ridge` — is 0,
so `#faces = 1 ≠ 0 = #active links` and the face is owned by no link. -/
theorem links_faces_count_counterexample :
    (create_links_and_faces_from_voronoi_diagram id bigRidgeVor).2.2.2 = [-1] ∧
    (create_links_and_faces_from_voronoi_diagram id bigRidgeVor).2.2.1 = [-1] ∧
    ((List.range bigRidgeVor.ridge_points.length).filter (fun i =>
      is_valid_voronoi_ridge bigRidgeVor
        ((argsort_points_by_x_then_y (link_midpoints bigRidgeVor)).getD i 0))).length
      = 0 ∧
    (1 : ℕ) ≠ 0 := by
  refine ⟨?_, ?_, ?_, by decide⟩ <;> decide

lemma map_getD_self {α : Type} (l : List α) (d : α) :
    (List.range l.length).map (fun i => l.getD i d) = l := by
  apply List.ext_getElem
  · simp
  · intro i h1 h2
    rw [List.getElem_map, List.getElem_range, List.getD_eq_getElem _ _ h2]

lemma countP_range_eq_sum (p : ℕ → Bool) (n : ℕ) :
    (List.range n).countP p = ∑ r ∈ Finset.range n, if p r then 1 else 0 := by
  induction n with
  | zero => rfl
  | succ k ih =>
    rw [List.range_succ, List.countP_append, Finset.sum_range_succ, ih]
    simp [List.countP_cons]

/-- Counting: under the amendment's hypotheses (no ridge has both vertices
undefined; every fully-defined ridge passes the magnitude bound), the
number of valid ridges in the sorted order equals
`num_links - #(-1 occurrences)` — the allocated buffer length. -/
lemma valid_count_eq_num_active (vor : VoronoiDiagramQ)
    (hlen_rv : vor.ridge_vertices.length = vor.ridge_points.length)
    (hnodouble : ∀ rv ∈ vor.ridge_vertices, ¬(rv.1 = -1 ∧ rv.2 = -1))
    (hbound : ∀ r < vor.ridge_points.length,
      (vor.ridge_vertices.getD r (-1, -1)).1 ≠ -1 →
      (vor.ridge_vertices.getD r (-1, -1)).2 ≠ -1 →
      is_valid_voronoi_ridge vor r = true) :
    ((List.range vor.ridge_points.length).filter (fun i =>
      is_valid_voronoi_ridge vor
        ((argsort_points_by_x_then_y (link_midpoints vor)).getD i 0))).length =
      vor.ridge_points.length - num_undefined_ridge_vertices vor := by
  have hmid : (link_midpoints vor).length = vor.ridge_points.length := by
    simp [link_midpoints]
  have hperm : (argsort_points_by_x_then_y (link_midpoints vor)).Perm
      (List.range vor.ridge_points.length) := by
    rw [argsort_points_by_x_then_y, hmid]
    exact List.perm_insertionSort _ _
  have hindlen : (argsort_points_by_x_then_y (link_midpoints vor)).length =
      vor.ridge_points.length := by
    rw [hperm.length_eq, List.length_range]
  have hstep1 : ((List.range vor.ridge_points.length).filter (fun i =>
      is_valid_voronoi_ridge vor
        ((argsort_points_by_x_then_y (link_midpoints vor)).getD i 0))).length =
      (argsort_points_by_x_then_y (link_midpoints vor)).countP
        (fun r => is_valid_voronoi_ridge vor r) := by
    rw [← List.countP_eq_length_filter]
    conv_rhs =>
      rw [← map_getD_self (argsort_points_by_x_then_y (link_midpoints vor)) 0]
    rw [List.countP_map, hindlen]
    rfl
  have hstep2 : (argsort_points_by_x_then_y (link_midpoints vor)).countP
      (fun r => is_valid_voronoi_ridge vor r) =
      (List.range vor.ridge_points.length).countP
        (fun r => is_valid_voronoi_ridge vor r) :=
    hperm.countP_eq _
  rw [hstep1, hstep2, countP_range_eq_sum]
  have hundef : num_undefined_ridge_vertices vor =
      ∑ r ∈ Finset.range vor.ridge_points.length,
        ((if (vor.ridge_vertices.getD r (-1, -1)).1 = -1 then 1 else 0) +
         (if (vor.ridge_vertices.getD r (-1, -1)).2 = -1 then 1 else 0)) := by
    rw [num_undefined_ridge_vertices,
      sum_map_eq_range_sum vor.ridge_vertices _ ((-1 : Int), (-1 : Int)), hlen_rv]
  have hpoint : ∀ r ∈ Finset.range vor.ridge_points.length,
      ((if is_valid_voronoi_ridge vor r then 1 else 0) +
       ((if (vor.ridge_vertices.getD r (-1, -1)).1 = -1 then 1 else 0) +
        (if (vor.ridge_vertices.getD r (-1, -1)).2 = -1 then 1 else 0))) = 1 := by
    intro r hr
    have hr' := Finset.mem_range.mp hr
    by_cases h1 : (vor.ridge_vertices.getD r (-1, -1)).1 = -1
    · have hmem : vor.ridge_vertices.getD r (-1, -1) ∈ vor.ridge_vertices := by
        rw [List.getD_eq_getElem _ _ (by omega)]
        exact List.getElem_mem (by omega)
      have h2 : (vor.ridge_vertices.getD r (-1, -1)).2 ≠ -1 := by
        intro h2
        exact hnodouble _ hmem ⟨h1, h2⟩
      have hval : is_valid_voronoi_ridge vor r = false := by
        unfold is_valid_voronoi_ridge
        simp only [Bool.and_eq_false_iff]
        left
        left
        simpa using h1
      rw [hval, if_pos h1, if_neg h2]
      simp
    · by_cases h2 : (vor.ridge_vertices.getD r (-1, -1)).2 = -1
      · have hval : is_valid_voronoi_ridge vor r = false := by
          unfold is_valid_voronoi_ridge
          simp only [Bool.and_eq_false_iff]
          left
          right
          simpa using h2
        rw [hval, if_neg h1, if_pos h2]
        simp
      · have hval := hbound r hr' h1 h2
        rw [hval, if_neg h1, if_neg h2]
        simp
  have hsum : (∑ r ∈ Finset.range vor.ridge_points.length,
      if is_valid_voronoi_ridge vor r then 1 else 0) +
      num_undefined_ridge_vertices vor = vor.ridge_points.length := by
    rw [hundef, ← Finset.sum_add_distrib, Finset.sum_congr rfl hpoint]
    simp
  omega

/-- C3 (amended): when no ridge has both vertices undefined and every
fully-defined ridge lies inside the magnitude bound, the returned face and
active-link arrays have equal length — the number of valid (active)
ridges; the arrays carry no duplicate link ids; position `j` pairs the
`j`-th active link with exactly one face whose width is the (square root
of the) squared Euclidean distance between that link's two ridge vertices;
and a link is listed active precisely when its ridge passes
`is_valid_voronoi_ridge` (both vertices defined and within the bound). -/
lemma take_append_exact {β : Type} (l : List β) (d : β) (n c : ℕ) (h : l.length = n) :
    (l ++ List.replicate c d).take n = l := by
  subst h
  exact List.take_left l _

theorem links_and_faces_active_iff_valid (sqrtq : ℚ → ℚ) (vor : VoronoiDiagramQ)
    (hlen_rv : vor.ridge_vertices.length = vor.ridge_points.length)
    (hnodouble : ∀ rv ∈ vor.ridge_vertices, ¬(rv.1 = -1 ∧ rv.2 = -1))
    (hbound : ∀ r < vor.ridge_points.length,
      (vor.ridge_vertices.getD r (-1, -1)).1 ≠ -1 →
      (vor.ridge_vertices.getD r (-1, -1)).2 ≠ -1 →
      is_valid_voronoi_ridge vor r = true) :
    ((create_links_and_faces_from_voronoi_diagram sqrtq vor).2.2.2).length =
      ((create_links_and_faces_from_voronoi_diagram sqrtq vor).2.2.1).length ∧
    ((create_links_and_faces_from_voronoi_diagram sqrtq vor).2.2.1).length =
      ((List.range vor.ridge_points.length).filter (fun i =>
        is_valid_voronoi_ridge vor
          ((argsort_points_by_x_then_y (link_midpoints vor)).getD i 0))).length ∧
    ((create_links_and_faces_from_voronoi_diagram sqrtq vor).2.2.1).Nodup ∧
    (∀ j, j < ((create_links_and_faces_from_voronoi_diagram sqrtq vor).2.2.1).length →
      ∃ i : ℕ, i < vor.ridge_points.length ∧
        ((create_links_and_faces_from_voronoi_diagram sqrtq vor).2.2.1).getD j 0 =
          (i : Int) ∧
        is_valid_voronoi_ridge vor
          ((argsort_points_by_x_then_y (link_midpoints vor)).getD i 0) = true ∧
        ((create_links_and_faces_from_voronoi_diagram sqrtq vor).2.2.2).getD j 0 =
          sqrtq (ridge_sq_width vor
            ((argsort_points_by_x_then_y (link_midpoints vor)).getD i 0))) ∧
    (∀ i, i < vor.ridge_points.length →
      (((i : Int) ∈ (create_links_and_faces_from_voronoi_diagram sqrtq vor).2.2.1) ↔
        is_valid_voronoi_ridge vor
          ((argsort_points_by_x_then_y (link_midpoints vor)).getD i 0) = true)) := by
  have hcount := valid_count_eq_num_active vor hlen_rv hnodouble hbound
  have heq_al : (create_links_and_faces_from_voronoi_diagram sqrtq vor).2.2.1 =
      ((List.range vor.ridge_points.length).filter (fun i =>
        is_valid_voronoi_ridge vor
          ((argsort_points_by_x_then_y (link_midpoints vor)).getD i 0))).map
        (fun i : ℕ => (i : Int)) :=
    take_append_exact _ (-1) _ _ (by rw [List.length_map]; exact hcount)
  have heq_fw : (create_links_and_faces_from_voronoi_diagram sqrtq vor).2.2.2 =
      ((List.range vor.ridge_points.length).filter (fun i =>
        is_valid_voronoi_ridge vor
          ((argsort_points_by_x_then_y (link_midpoints vor)).getD i 0))).map
        (fun i => sqrtq (ridge_sq_width vor
          ((argsort_points_by_x_then_y (link_midpoints vor)).getD i 0))) :=
    take_append_exact _ (-1) _ _ (by rw [List.length_map]; exact hcount)
  have hinj : Function.Injective (fun i : ℕ => (i : Int)) :=
    fun a b h => by simpa using h
  refine ⟨?_, ?_, ?_, ?_, ?_⟩
  · rw [heq_al, heq_fw, List.length_map, List.length_map]
  · rw [heq_al, List.length_map]
  · rw [heq_al]
    exact ((List.nodup_range _).filter _).map hinj
  · intro j hj
    rw [heq_al, List.length_map] at hj
    refine ⟨((List.range vor.ridge_points.length).filter (fun i =>
        is_valid_voronoi_ridge vor
          ((argsort_points_by_x_then_y (link_midpoints vor)).getD i 0))).getD j 0,
      ?_, ?_, ?_, ?_⟩
    · have hmem : ((List.range vor.ridge_points.length).filter (fun i =>
          is_valid_voronoi_ridge vor
            ((argsort_points_by_x_then_y (link_midpoints vor)).getD i 0))).getD j 0 ∈
          (List.range vor.ridge_points.length).filter (fun i =>
            is_valid_voronoi_ridge vor
              ((argsort_points_by_x_then_y (link_midpoints vor)).getD i 0)) := by
        rw [List.getD_eq_getElem _ _ hj]
        exact List.getElem_mem hj
      exact List.mem_range.mp (List.mem_filter.mp hmem).1
    · rw [heq_al]
      exact getD_map_at _ _ j 0 0 hj
    · have hmem : ((List.range vor.ridge_points.length).filter (fun i =>
          is_valid_voronoi_ridge vor
            ((argsort_points_by_x_then_y (link_midpoints vor)).getD i 0))).getD j 0 ∈
          (List.range vor.ridge_points.length).filter (fun i =>
            is_valid_voronoi_ridge vor
              ((argsort_points_by_x_then_y (link_midpoints vor)).getD i 0)) := by
        rw [List.getD_eq_getElem _ _ hj]
        exact List.getElem_mem hj
      exact (List.mem_filter.mp hmem).2
    · rw [heq_fw]
      exact getD_map_at _ _ j 0 0 hj
  · intro i hi
    rw [heq_al]
    constructor
    · intro hmem
      obtain ⟨a, ha, hai⟩ := List.mem_map.mp hmem
      have haeq : a = i := by simpa using hai
      subst haeq
      exact (List.mem_filter.mp ha).2
    · intro hvalid
      exact List.mem_map.mpr ⟨i, List.mem_filter.mpr ⟨List.mem_range.mpr hi, hvalid⟩, rfl⟩

/-- A well-behaved one-ridge diagram: both ridge vertices defined and tiny,
so the single link is active and owns one face. -/
def goodVor : VoronoiDiagramQ where
  points := [(0, 0), (1, 0)]
  vertices := [(0, 0), (0, 3)]
  ridge_points := [(0, 1)]
  ridge_vertices := [(0, 1)]

/-- Witness for C3's amended theorem at the concrete diagram `goodVor`
(with the identity standing in for the abstract square root). -/
theorem links_and_faces_active_iff_valid_witness :
    ((create_links_and_faces_from_voronoi_diagram id goodVor).2.2.2).length =
      ((create_links_and_faces_from_voronoi_diagram id goodVor).2.2.1).length ∧
    ((create_links_and_faces_from_voronoi_diagram id goodVor).2.2.1).length =
      ((List.range goodVor.ridge_points.length).filter (fun i =>
        is_valid_voronoi_ridge goodVor
          ((argsort_points_by_x_then_y (link_midpoints goodVor)).getD i 0))).length ∧
    ((create_links_and_faces_from_voronoi_diagram id goodVor).2.2.1).Nodup ∧
    (∀ j, j < ((create_links_and_faces_from_voronoi_diagram id goodVor).2.2.1).length →
      ∃ i : ℕ, i < goodVor.ridge_points.length ∧
        ((create_links_and_faces_from_voronoi_diagram id goodVor).2.2.1).getD j 0 =
          (i : Int) ∧
        is_valid_voronoi_ridge goodVor
          ((argsort_points_by_x_then_y (link_midpoints goodVor)).getD i 0) = true ∧
        ((create_links_and_faces_from_voronoi_diagram id goodVor).2.2.2).getD j 0 =
          id (ridge_sq_width goodVor
            ((argsort_points_by_x_then_y (link_midpoints goodVor)).getD i 0))) ∧
    (∀ i, i < goodVor.ridge_points.length →
      (((i : Int) ∈ (create_links_and_faces_from_voronoi_diagram id goodVor).2.2.1) ↔
        is_valid_voronoi_ridge goodVor
          ((argsort_points_by_x_then_y (link_midpoints goodVor)).getD i 0) = true)) :=
  links_and_faces_active_iff_valid id goodVor (by decide) (by decide) (by decide)

end Landlab
